import Mathlib

/-!
Verification of the zip stream size calculators of this repository.

The two calculators embedded here are translated from
`src/lib/core/zip-size-calculator.stable.js` (`calculateZipStreamSize`) and
from the advanced calculator shipped with `src/stress-test-zero-tolerance.js`
(`calculateZipStreamSizeAdvanced`, `getZip64ExtraFieldSize`).

JavaScript peculiarities that matter and are modelled faithfully:
* `entry.uncompressedSize || entry.size || 0` treats `0` and `undefined` as
  falsy, so a present-but-zero field falls through to the next one;
* `entry.filename || entry.name || ''` treats the empty string as falsy;
* `entry.directory || entry.filename.endsWith('/')` short-circuits: when
  `directory` is falsy and `filename` is not a string the expression throws a
  TypeError, hence the calculators are `Option`-valued here;
* filename and comment lengths are UTF-8 byte lengths
  (`new TextEncoder().encode(s).length`).
-/

namespace ZipSize

/-- Modelled from the spec: `lib/core/constants.js` is not under `src/`.
The spec's ZIP64 promotion threshold is "size > 0xFFFFFFFE" and the source
compares `size > MAX_32_BITS`, so `MAX_32_BITS` is 0xFFFFFFFE. -/
def MAX_32_BITS : Nat := 4294967294

/-- Modelled from the spec: `lib/core/constants.js` is not under `src/`.
The spec says an archive is ZIP64 when the entry count exceeds 65,534 and the
source compares `entries.length > MAX_16_BITS`. -/
def MAX_16_BITS : Nat := 65534

/-- Modelled from the spec: end-of-central-directory record is 22 bytes plus
the archive comment (`constants.js` is not under `src/`). -/
def END_OF_CENTRAL_DIR_LENGTH : Nat := 22

/-- Modelled from the spec: ZIP64 end-of-central-directory record is 56 bytes
(`constants.js` is not under `src/`). -/
def ZIP64_END_OF_CENTRAL_DIR_LENGTH : Nat := 56

/-- Modelled from the spec: ZIP64 end-of-central-directory locator is 20 bytes
(`constants.js` is not under `src/`). -/
def ZIP64_END_OF_CENTRAL_DIR_LOCATOR_LENGTH : Nat := 20

/-- Modelled from the spec: the ZIP64 tail is the ZIP64 record (56) plus the
locator (20) — 76 additional bytes — on top of the ordinary 22-byte
end-of-central-directory record (`constants.js` is not under `src/`). -/
def ZIP64_END_OF_CENTRAL_DIR_TOTAL_LENGTH : Nat :=
  ZIP64_END_OF_CENTRAL_DIR_LENGTH + ZIP64_END_OF_CENTRAL_DIR_LOCATOR_LENGTH +
    END_OF_CENTRAL_DIR_LENGTH

/-- Source constant `LOCAL_FILE_HEADER_BASE_SIZE = 30`. -/
def LOCAL_FILE_HEADER_BASE_SIZE : Nat := 30

/-- Source constant `CENTRAL_DIRECTORY_HEADER_BASE_SIZE = 46`. -/
def CENTRAL_DIRECTORY_HEADER_BASE_SIZE : Nat := 46

/-- Source constant `DATA_DESCRIPTOR_SIZE = 12` — CRC-32 + compressed size +
uncompressed size, no signature. -/
def DATA_DESCRIPTOR_SIZE : Nat := 12

/-- Source constant `DATA_DESCRIPTOR_ZIP64_SIZE = 20` (advanced calculator). -/
def DATA_DESCRIPTOR_ZIP64_SIZE : Nat := 20

/-- Source constant `EXTENDED_TIMESTAMP_LOCAL_SIZE = 9`. -/
def EXTENDED_TIMESTAMP_LOCAL_SIZE : Nat := 9

/-- Source constant `NTFS_TIMESTAMP_LOCAL_SIZE = 36`. -/
def NTFS_TIMESTAMP_LOCAL_SIZE : Nat := 36

/-- Source constant `LOCAL_EXTRA_FIELD_BASE_SIZE = 9 + 36 = 45`. -/
def LOCAL_EXTRA_FIELD_BASE_SIZE : Nat :=
  EXTENDED_TIMESTAMP_LOCAL_SIZE + NTFS_TIMESTAMP_LOCAL_SIZE

/-- Source constant `CENTRAL_EXTRA_FIELD_BASE_SIZE = 9 + 36 = 45` (advanced
calculator). -/
def CENTRAL_EXTRA_FIELD_BASE_SIZE : Nat :=
  EXTENDED_TIMESTAMP_LOCAL_SIZE + NTFS_TIMESTAMP_LOCAL_SIZE

/-- An `EntryMetaData` object as consumed by the calculators.  Optional fields
are `Option`-valued; a JS field holding `undefined` is `none`. -/
structure EntryMeta where
  filename : Option String
  name : Option String
  uncompressedSize : Option Nat
  compressedSize : Option Nat
  size : Option Nat
  zip64 : Bool
  directory : Bool
  comment : Option String
deriving DecidableEq

/-- The options object of both calculators, with its four recognized fields. -/
structure CalcOptions where
  zip64 : Bool
  commentSize : Nat
  useDataDescriptor : Bool
  splitArchive : Bool
deriving DecidableEq

/-- The JS defaults: `zip64 = false, commentSize = 0, useDataDescriptor = true,
splitArchive = false`. -/
def defaultOptions : CalcOptions :=
  { zip64 := false, commentSize := 0, useDataDescriptor := true, splitArchive := false }

/-- An options object with the given `zip64` force flag, comment size and
split flag, and the default `useDataDescriptor = true`. -/
def mkOptions (z : Bool) (c : Nat) (split : Bool) : CalcOptions :=
  { zip64 := z, commentSize := c, useDataDescriptor := true, splitArchive := split }

/-- JavaScript `a || b` on numeric fields: `undefined` and `0` are falsy. -/
def jsNumOr (a : Option Nat) (k : Nat) : Nat :=
  match a with
  | none => k
  | some 0 => k
  | some n => n

/-- JavaScript `a || b` on string fields: `undefined` and the empty string are
falsy. -/
def jsStrOr (a : Option String) (k : String) : String :=
  match a with
  | none => k
  | some s => if s = "" then k else s

/-- UTF-8 size of one unicode scalar, as produced by `TextEncoder`. -/
def utf8CharSize (c : Char) : Nat :=
  if c.toNat < 128 then 1
  else if c.toNat < 2048 then 2
  else if c.toNat < 65536 then 3
  else 4

/-- Translation of `new TextEncoder().encode(s).length`: the UTF-8 byte length
of `s`. -/
def utf8Length (s : String) : Nat :=
  s.data.foldl (fun n c => n + utf8CharSize c) 0

/-- JavaScript `s.endsWith('/')`. -/
def endsWithSlash (s : String) : Bool :=
  match s.data.getLast? with
  | some c => c = '/'
  | none => false

/-- Translation of `entry.directory || entry.filename.endsWith('/')`: when
`directory` is
falsy and `filename` is not a string, the dereference throws (`none`).
All four call sites discard the value; only the possible throw matters. -/
def isDirectoryJS (e : EntryMeta) : Option Bool :=
  if e.directory then some true
  else e.filename.map endsWithSlash

/-- Translation of `entry.filename || entry.name || ''`. -/
def resolvedFilename (e : EntryMeta) : String :=
  jsStrOr e.filename (jsStrOr e.name "")

/-- Translation of `new TextEncoder().encode(filename).length`. -/
def filenameLength (e : EntryMeta) : Nat :=
  utf8Length (resolvedFilename e)

/-- Translation of
`entry.comment ? new TextEncoder().encode(entry.comment).length : 0`. -/
def commentLength (e : EntryMeta) : Nat :=
  match e.comment with
  | none => 0
  | some c => if c = "" then 0 else utf8Length c

/-- Translation of `entry.uncompressedSize || entry.size || 0`. -/
def resolvedUncompressedSize (e : EntryMeta) : Nat :=
  jsNumOr e.uncompressedSize (jsNumOr e.size 0)

/-- Translation of `entry.compressedSize || entry.size || 0`. -/
def resolvedCompressedSize (e : EntryMeta) : Nat :=
  jsNumOr e.compressedSize (jsNumOr e.size 0)

/-- An entry the per-entry loop body can process without throwing. -/
def entryOk (e : EntryMeta) : Bool :=
  e.directory || e.filename.isSome

/-- Translation of `entry.zip64 || uncompressedSize > MAX_32_BITS ||
compressedSize > MAX_32_BITS || localDataSize > MAX_32_BITS` (stable
calculator, lines 93-96; identically advanced, lines 363-366). -/
def entryNeedsZip64B (e : EntryMeta) (localDataSize : Nat) : Bool :=
  e.zip64 || decide (resolvedUncompressedSize e > MAX_32_BITS) ||
    decide (resolvedCompressedSize e > MAX_32_BITS) ||
    decide (localDataSize > MAX_32_BITS)

/-- Running state of both calculators: the `needsZip64` flag, the accumulated
local data bytes (= offset of the next local header) and the accumulated
central directory bytes. -/
structure CalcState where
  needsZip64 : Bool
  localDataSize : Nat
  centralDirectorySize : Nat
deriving DecidableEq

/-- One iteration of the stable calculator's entry loop (lines 82-138),
without the possible TypeError. -/
def stableStepCore (s : CalcState) (e : EntryMeta) : CalcState :=
  let fn := filenameLength e
  let cm := commentLength e
  let co := resolvedCompressedSize e
  let enz := entryNeedsZip64B e s.localDataSize
  let localHeaderSize := LOCAL_FILE_HEADER_BASE_SIZE + fn + LOCAL_EXTRA_FIELD_BASE_SIZE
  let dataDescriptorSize := if enz then 20 else DATA_DESCRIPTOR_SIZE
  let centralExtraFieldSize := LOCAL_EXTRA_FIELD_BASE_SIZE + (if enz then 32 else 0)
  let centralHeaderSize := CENTRAL_DIRECTORY_HEADER_BASE_SIZE + fn + cm + centralExtraFieldSize
  let local2 := s.localDataSize + localHeaderSize + co + dataDescriptorSize
  let central2 := s.centralDirectorySize + centralHeaderSize
  { needsZip64 := s.needsZip64 || enz || decide (local2 > MAX_32_BITS) ||
      decide (central2 > MAX_32_BITS),
    localDataSize := local2,
    centralDirectorySize := central2 }

/-- One iteration of the stable calculator's entry loop, with the `isDirectory`
computation (line 85) whose only effect is the possible TypeError. -/
def stableStep (s : CalcState) (e : EntryMeta) : Option CalcState :=
  (isDirectoryJS e).map (fun _ => stableStepCore s e)

/-- The stable calculator's entry loop. -/
def stableRun (s : CalcState) : List EntryMeta → Option CalcState
  | [] => some s
  | e :: es =>
    match stableStep s e with
    | none => none
    | some t => stableRun t es

/-- The throw-free arithmetic of the stable calculator's entry loop. -/
def stableFoldCore (s : CalcState) (es : List EntryMeta) : CalcState :=
  es.foldl stableStepCore s

/-- Translation of `calculateZipStreamSize(entries, options)` from
`src/lib/core/zip-size-calculator.stable.js`, lines 53-159. -/
def calculateZipStreamSize (entries : List EntryMeta) (options : CalcOptions) :
    Option Nat :=
  let init : CalcState :=
    { needsZip64 := options.zip64, localDataSize := 0, centralDirectorySize := 0 }
  match stableRun init entries with
  | none => none
  | some s =>
    let needs := s.needsZip64 || decide (entries.length > MAX_16_BITS)
    some (s.localDataSize + s.centralDirectorySize +
      (if needs then ZIP64_END_OF_CENTRAL_DIR_TOTAL_LENGTH
       else END_OF_CENTRAL_DIR_LENGTH) + options.commentSize)

/-- Translation of `zip64Enabled` of `getZip64ExtraFieldSize` (lines 434-437):
the advanced
calculator substitutes `Math.max(compressedSize, uncompressedSize)` for the
compressed size. -/
def zip64EnabledB (e : EntryMeta) (currentOffset : Nat) : Bool :=
  e.zip64 || decide (resolvedUncompressedSize e > MAX_32_BITS) ||
    decide (max (resolvedCompressedSize e) (resolvedUncompressedSize e) > MAX_32_BITS) ||
    decide (currentOffset > MAX_32_BITS)

/-- The arithmetic of `getZip64ExtraFieldSize` (lines 427-468), without the
possible TypeError of its own `isDirectory` computation. -/
def getZip64ExtraFieldSizeCore (e : EntryMeta) (isFirstEntry splitArchive : Bool)
    (currentOffset : Nat) : Nat :=
  let un := resolvedUncompressedSize e
  let maxC := max (resolvedCompressedSize e) un
  let zip64Enabled := zip64EnabledB e currentOffset
  if !zip64Enabled then 0
  else
    let zip64UncompressedSize := zip64Enabled || decide (un > MAX_32_BITS)
    let zip64CompressedSize := zip64Enabled || decide (maxC > MAX_32_BITS)
    let zip64Offset := zip64Enabled || decide (currentOffset > MAX_32_BITS)
    let zip64DiskNumberStart := splitArchive && zip64Enabled
    4 + (if zip64UncompressedSize then 8 else 0) +
      (if zip64CompressedSize then 8 else 0) +
      (if zip64Offset && !isFirstEntry then 8 else 0) +
      (if zip64DiskNumberStart then 4 else 0)

/-- Translation of
`getZip64ExtraFieldSize(entry, isFirstEntry, splitArchive, currentOffset)`
from the advanced calculator (lines 427-468).  Its first statement evaluates
`entry.directory || entry.filename.endsWith('/')` and discards the result;
only the possible TypeError remains observable. -/
def getZip64ExtraFieldSize (e : EntryMeta) (isFirstEntry splitArchive : Bool)
    (currentOffset : Nat) : Option Nat :=
  (isDirectoryJS e).map
    (fun _ => getZip64ExtraFieldSizeCore e isFirstEntry splitArchive currentOffset)

/-- One iteration of the advanced calculator's entry loop (lines 352-396),
without the possible TypeErrors. -/
def advStepCore (splitArchive isFirst : Bool) (s : CalcState) (e : EntryMeta) :
    CalcState :=
  let fn := filenameLength e
  let cm := commentLength e
  let co := resolvedCompressedSize e
  let enz := entryNeedsZip64B e s.localDataSize
  let z := getZip64ExtraFieldSizeCore e isFirst splitArchive s.localDataSize
  let localHeaderSize := LOCAL_FILE_HEADER_BASE_SIZE + fn + LOCAL_EXTRA_FIELD_BASE_SIZE
  let dataDescriptorSize := if enz then DATA_DESCRIPTOR_ZIP64_SIZE else DATA_DESCRIPTOR_SIZE
  let centralHeaderSize := CENTRAL_DIRECTORY_HEADER_BASE_SIZE + fn + cm +
    CENTRAL_EXTRA_FIELD_BASE_SIZE + z
  { needsZip64 := s.needsZip64 || enz,
    localDataSize := s.localDataSize + localHeaderSize + co + dataDescriptorSize,
    centralDirectorySize := s.centralDirectorySize + centralHeaderSize }

/-- One iteration of the advanced calculator's entry loop, with the
`isDirectory` computations of line 355 and of `getZip64ExtraFieldSize`. -/
def advStep (splitArchive isFirst : Bool) (s : CalcState) (e : EntryMeta) :
    Option CalcState :=
  (isDirectoryJS e).bind
    (fun _ => (getZip64ExtraFieldSize e isFirst splitArchive s.localDataSize).map
      (fun _ => advStepCore splitArchive isFirst s e))

/-- The advanced calculator's entry loop; `isFirst` holds at the head entry. -/
def advRun (splitArchive : Bool) : Bool → CalcState → List EntryMeta → Option CalcState
  | _, s, [] => some s
  | isFirst, s, e :: es =>
    match advStep splitArchive isFirst s e with
    | none => none
    | some t => advRun splitArchive false t es

/-- The throw-free arithmetic of the advanced calculator's entry loop. -/
def advFoldCore (splitArchive : Bool) : Bool → CalcState → List EntryMeta → CalcState
  | _, s, [] => s
  | isFirst, s, e :: es => advFoldCore splitArchive false (advStepCore splitArchive isFirst s e) es

/-- Translation of `calculateZipStreamSizeAdvanced(entries, options)` from the
advanced
calculator shipped with `src/stress-test-zero-tolerance.js`, lines 321-421. -/
def calculateZipStreamSizeAdvanced (entries : List EntryMeta)
    (options : CalcOptions) : Option Nat :=
  let init : CalcState :=
    { needsZip64 := options.zip64, localDataSize := 0, centralDirectorySize := 0 }
  match advRun options.splitArchive true init entries with
  | none => none
  | some s =>
    let needs := s.needsZip64 || decide (entries.length > MAX_16_BITS)
    some (s.localDataSize + s.centralDirectorySize +
      (if needs then
        ZIP64_END_OF_CENTRAL_DIR_LENGTH + ZIP64_END_OF_CENTRAL_DIR_LOCATOR_LENGTH +
          END_OF_CENTRAL_DIR_LENGTH
       else END_OF_CENTRAL_DIR_LENGTH) + options.commentSize)

/-- A plain file entry with the given filename and size, as built by the test
helpers (`createEntryMetadataAdvanced` with a sized reader). -/
def mkFileEntry (fn : String) (sz : Nat) : EntryMeta :=
  { filename := some fn, name := none, uncompressedSize := some sz,
    compressedSize := some sz, size := none, zip64 := false, directory := false,
    comment := none }

/-- The `needsZip64` value the stable calculator holds after its entry loop and
the entry-count check (lines 77, 98-100, 135-137, 141-143): the archive-wide
ZIP64 mark. -/
def archiveIsZip64 (entries : List EntryMeta) (options : CalcOptions) :
    Option Bool :=
  let init : CalcState :=
    { needsZip64 := options.zip64, localDataSize := 0, centralDirectorySize := 0 }
  match stableRun init entries with
  | none => none
  | some s => some (s.needsZip64 || decide (entries.length > MAX_16_BITS))

/-- Accumulated local data bytes after processing `es` (stable calculator);
this is also the local-header offset of the entry that would follow `es`. -/
def finalLocalDataSize (es : List EntryMeta) : Nat :=
  (stableFoldCore { needsZip64 := false, localDataSize := 0, centralDirectorySize := 0 } es).localDataSize

/-- Accumulated central directory bytes after processing `es` (stable
calculator). -/
def finalCentralDirectorySize (es : List EntryMeta) : Nat :=
  (stableFoldCore { needsZip64 := false, localDataSize := 0, centralDirectorySize := 0 } es).centralDirectorySize

/-- Local-header offset of entry `i`: the local data bytes accumulated over the
entries before it. -/
def localHeaderOffset (es : List EntryMeta) (i : Nat) : Nat :=
  finalLocalDataSize (es.take i)

/-- Local bytes the stable calculator accounts for one entry whose local header
starts at offset `off`: fixed 30-byte header, filename, the 45-byte
extended-timestamp + NTFS-timestamp extra field (never a ZIP64 local extra
field), the payload, and a 20- or 12-byte data descriptor. -/
def entryLocalBytes (e : EntryMeta) (off : Nat) : Nat :=
  LOCAL_FILE_HEADER_BASE_SIZE + filenameLength e + LOCAL_EXTRA_FIELD_BASE_SIZE +
    resolvedCompressedSize e +
    (if entryNeedsZip64B e off then 20 else DATA_DESCRIPTOR_SIZE)

/-- Sum of `entryLocalBytes` over a list, threading the running offset. -/
def localBytesFrom (off : Nat) : List EntryMeta → Nat
  | [] => 0
  | e :: es => entryLocalBytes e off + localBytesFrom (off + entryLocalBytes e off) es

/-- A declarative store entry of the size estimator's input (spec §4.5): a
name, a known uncompressed size (level 0, so compressed = uncompressed), and a
comment. -/
structure SpecEntry where
  name : String
  uncompressedSize : Nat
  comment : String
deriving DecidableEq

/-- The `EntryMetaData` object a committed store entry presents to the
calculators: `compressedSize` equals `uncompressedSize` (level 0). -/
def SpecEntry.toEntryMeta (s : SpecEntry) : EntryMeta :=
  { filename := some s.name, name := none,
    uncompressedSize := some s.uncompressedSize,
    compressedSize := some s.uncompressedSize,
    size := none, zip64 := false, directory := false, comment := some s.comment }

/-- Modelled from the spec: the archive assembler (component C4, the
zip-writer) is not under `src/`.  Bytes it emits for an archive whose entries
are all level-0 (store) with known `uncompressedSize` fitting u32, ZIP64 not
forced, no AES:
per entry a 30-byte local file header + filename + the local extra field
(extended timestamp 9 + NTFS timestamp 36; §4.3: no ZIP64 local extra is
reserved since the size is known, fits and ZIP64 is not forced), the payload
(store: compressed = uncompressed), and no data descriptor (§4.3: a known size
fitting u32 writes true sizes and does not set the data-descriptor flag); then
per entry a 46-byte central directory header + filename + the same 45-byte
extra field + entry comment (no ZIP64 fields: sizes and offsets fit); finally
the 22-byte end-of-central-directory record + archive comment. -/
def assemblerEmittedSize : List SpecEntry → Nat → Nat
  | [], archiveCommentLength => END_OF_CENTRAL_DIR_LENGTH + archiveCommentLength
  | s :: ss, archiveCommentLength =>
    (LOCAL_FILE_HEADER_BASE_SIZE + utf8Length s.name +
      (EXTENDED_TIMESTAMP_LOCAL_SIZE + NTFS_TIMESTAMP_LOCAL_SIZE) + s.uncompressedSize) +
    (CENTRAL_DIRECTORY_HEADER_BASE_SIZE + utf8Length s.name +
      (EXTENDED_TIMESTAMP_LOCAL_SIZE + NTFS_TIMESTAMP_LOCAL_SIZE) + utf8Length s.comment) +
    assemblerEmittedSize ss archiveCommentLength

/-- Local bytes the stable calculator accumulates for one store entry. -/
def estLocalBytes : List SpecEntry → Nat
  | [] => 0
  | s :: ss =>
    (LOCAL_FILE_HEADER_BASE_SIZE + utf8Length s.name + LOCAL_EXTRA_FIELD_BASE_SIZE +
      s.uncompressedSize + DATA_DESCRIPTOR_SIZE) + estLocalBytes ss

/-- Central directory bytes the stable calculator accumulates for store
entries that stay below every ZIP64 threshold. -/
def estCentralBytes : List SpecEntry → Nat
  | [] => 0
  | s :: ss =>
    (CENTRAL_DIRECTORY_HEADER_BASE_SIZE + utf8Length s.name + utf8Length s.comment +
      LOCAL_EXTRA_FIELD_BASE_SIZE) + estCentralBytes ss

/-- A store entry `{name := "a", size := 0}` — concrete input of C1's
counterexample. -/
def c1Entry : SpecEntry := { name := "a", uncompressedSize := 0, comment := "" }

/-- A non-ZIP64 file entry used in concrete evaluations. -/
def plainEntry : EntryMeta := mkFileEntry "a" 0

/-- An entry with the per-entry `zip64` flag forced — ZIP64 promotion is
possible for it in the sense of spec §4.3. -/
def forcedZip64Entry : EntryMeta :=
  { filename := some "a", name := none, uncompressedSize := some 0,
    compressedSize := some 0, size := none, zip64 := true, directory := false,
    comment := none }

/-- A directory entry with zero sizes and the `zip64` flag unset — concrete
input of C6. -/
def dirEntry : EntryMeta :=
  { filename := some "big-folder/", name := none, uncompressedSize := some 0,
    compressedSize := some 0, size := none, zip64 := false, directory := true,
    comment := none }

example : calculateZipStreamSize [mkFileEntry "a" 0] defaultOptions = some 202 := by decide

example : utf8Length "é" = 2 := by decide

example : calculateZipStreamSizeAdvanced [mkFileEntry "a" 0] defaultOptions = some 202 := by decide

lemma isDirectoryJS_isSome (e : EntryMeta) : (isDirectoryJS e).isSome = entryOk e := by
  unfold isDirectoryJS entryOk
  rcases hd : e.directory with _ | _ <;> rcases hf : e.filename with _ | f <;> simp

lemma stableStep_ok (s : CalcState) (e : EntryMeta) (h : entryOk e = true) :
    stableStep s e = some (stableStepCore s e) := by
  unfold stableStep
  rcases ho : isDirectoryJS e with _ | b
  · exfalso
    have := isDirectoryJS_isSome e
    rw [ho, h] at this
    simp at this
  · simp [Option.map]

lemma stableRun_ok (es : List EntryMeta) (s : CalcState)
    (h : ∀ e ∈ es, entryOk e = true) :
    stableRun s es = some (stableFoldCore s es) := by
  induction es generalizing s with
  | nil => rfl
  | cons e es ih =>
    have he : entryOk e = true := h e (List.mem_cons_self e es)
    have ht : ∀ x ∈ es, entryOk x = true := fun x hx => h x (List.mem_cons_of_mem e hx)
    simp only [stableRun, stableStep_ok s e he, stableFoldCore, List.foldl_cons]
    exact ih (stableStepCore s e) ht

lemma getZip64ExtraFieldSize_ok (e : EntryMeta) (first split : Bool) (off : Nat)
    (h : entryOk e = true) :
    getZip64ExtraFieldSize e first split off =
      some (getZip64ExtraFieldSizeCore e first split off) := by
  unfold getZip64ExtraFieldSize
  rcases ho : isDirectoryJS e with _ | b
  · exfalso
    have := isDirectoryJS_isSome e
    rw [ho, h] at this
    simp at this
  · simp [Option.map]

lemma advStep_ok (split first : Bool) (s : CalcState) (e : EntryMeta)
    (h : entryOk e = true) :
    advStep split first s e = some (advStepCore split first s e) := by
  unfold advStep
  rcases ho : isDirectoryJS e with _ | b
  · exfalso
    have := isDirectoryJS_isSome e
    rw [ho, h] at this
    simp at this
  · rw [getZip64ExtraFieldSize_ok e first split s.localDataSize h]
    simp [Option.bind, Option.map]

lemma advRun_ok (es : List EntryMeta) (split first : Bool) (s : CalcState)
    (h : ∀ e ∈ es, entryOk e = true) :
    advRun split first s es = some (advFoldCore split first s es) := by
  induction es generalizing s first with
  | nil => rfl
  | cons e es ih =>
    have he : entryOk e = true := h e (List.mem_cons_self e es)
    have ht : ∀ x ∈ es, entryOk x = true := fun x hx => h x (List.mem_cons_of_mem e hx)
    simp only [advRun, advStep_ok split first s e he, advFoldCore]
    exact ih false (advStepCore split first s e) ht

lemma stableStepCore_local (s : CalcState) (e : EntryMeta) :
    (stableStepCore s e).localDataSize =
      s.localDataSize +
        (LOCAL_FILE_HEADER_BASE_SIZE + filenameLength e + LOCAL_EXTRA_FIELD_BASE_SIZE) +
        resolvedCompressedSize e +
        (if entryNeedsZip64B e s.localDataSize then 20 else DATA_DESCRIPTOR_SIZE) := rfl

lemma stableStepCore_central (s : CalcState) (e : EntryMeta) :
    (stableStepCore s e).centralDirectorySize =
      s.centralDirectorySize +
        (CENTRAL_DIRECTORY_HEADER_BASE_SIZE + filenameLength e + commentLength e +
          (LOCAL_EXTRA_FIELD_BASE_SIZE +
            (if entryNeedsZip64B e s.localDataSize then 32 else 0))) := rfl

lemma stableStepCore_needs (s : CalcState) (e : EntryMeta) :
    (stableStepCore s e).needsZip64 =
      (s.needsZip64 || entryNeedsZip64B e s.localDataSize ||
        decide ((stableStepCore s e).localDataSize > MAX_32_BITS) ||
        decide ((stableStepCore s e).centralDirectorySize > MAX_32_BITS)) := rfl

lemma stableStepCore_local_le (s : CalcState) (e : EntryMeta) :
    s.localDataSize ≤ (stableStepCore s e).localDataSize := by
  rw [stableStepCore_local]; omega

lemma stableStepCore_central_le (s : CalcState) (e : EntryMeta) :
    s.centralDirectorySize ≤ (stableStepCore s e).centralDirectorySize := by
  rw [stableStepCore_central]; omega

lemma stableFoldCore_local_le (es : List EntryMeta) (s : CalcState) :
    s.localDataSize ≤ (stableFoldCore s es).localDataSize := by
  induction es generalizing s with
  | nil => exact Nat.le_refl _
  | cons e es ih =>
    exact Nat.le_trans (stableStepCore_local_le s e) (ih (stableStepCore s e))

lemma stableFoldCore_central_le (es : List EntryMeta) (s : CalcState) :
    s.centralDirectorySize ≤ (stableFoldCore s es).centralDirectorySize := by
  induction es generalizing s with
  | nil => exact Nat.le_refl _
  | cons e es ih =>
    exact Nat.le_trans (stableStepCore_central_le s e) (ih (stableStepCore s e))

lemma stableFoldCore_numeric (es : List EntryMeta) (s t : CalcState)
    (hl : s.localDataSize = t.localDataSize)
    (hc : s.centralDirectorySize = t.centralDirectorySize) :
    (stableFoldCore s es).localDataSize = (stableFoldCore t es).localDataSize ∧
      (stableFoldCore s es).centralDirectorySize =
        (stableFoldCore t es).centralDirectorySize := by
  induction es generalizing s t with
  | nil => exact ⟨hl, hc⟩
  | cons e es ih =>
    refine ih (stableStepCore s e) (stableStepCore t e) ?_ ?_
    · rw [stableStepCore_local, stableStepCore_local, hl]
    · rw [stableStepCore_central, stableStepCore_central, hc, hl]

lemma stableFoldCore_needs_mono (es : List EntryMeta) (s : CalcState)
    (h : s.needsZip64 = true) : (stableFoldCore s es).needsZip64 = true := by
  induction es generalizing s with
  | nil => exact h
  | cons e es ih =>
    refine ih (stableStepCore s e) ?_
    rw [stableStepCore_needs, h]
    rfl

lemma stableFoldCore_append (s : CalcState) (es : List EntryMeta) (e : EntryMeta) :
    stableFoldCore s (es ++ [e]) = stableStepCore (stableFoldCore s es) e := by
  unfold stableFoldCore
  rw [List.foldl_append]
  rfl

lemma CalcState.eqOf (s t : CalcState) (h1 : s.needsZip64 = t.needsZip64)
    (h2 : s.localDataSize = t.localDataSize)
    (h3 : s.centralDirectorySize = t.centralDirectorySize) : s = t := by
  cases s
  cases t
  simp_all

lemma entryNeedsZip64B_iff (e : EntryMeta) (off : Nat) :
    entryNeedsZip64B e off = true ↔
      e.zip64 = true ∨ resolvedUncompressedSize e > MAX_32_BITS ∨
        resolvedCompressedSize e > MAX_32_BITS ∨ off > MAX_32_BITS := by
  simp [entryNeedsZip64B, Bool.or_eq_true, decide_eq_true_eq, or_assoc]

lemma entryNeedsZip64B_false (e : EntryMeta) (off : Nat) (h0 : e.zip64 = false)
    (h1 : resolvedUncompressedSize e ≤ MAX_32_BITS)
    (h2 : resolvedCompressedSize e ≤ MAX_32_BITS) (h3 : off ≤ MAX_32_BITS) :
    entryNeedsZip64B e off = false := by
  simp [entryNeedsZip64B, h0]
  omega

lemma zip64EnabledB_false (e : EntryMeta) (off : Nat) (h0 : e.zip64 = false)
    (h1 : resolvedUncompressedSize e ≤ MAX_32_BITS)
    (h2 : resolvedCompressedSize e ≤ MAX_32_BITS) (h3 : off ≤ MAX_32_BITS) :
    zip64EnabledB e off = false := by
  simp [zip64EnabledB, h0]
  omega

lemma getZip64ExtraFieldSizeCore_of_disabled (e : EntryMeta) (first split : Bool)
    (off : Nat) (h : zip64EnabledB e off = false) :
    getZip64ExtraFieldSizeCore e first split off = 0 := by
  unfold getZip64ExtraFieldSizeCore
  rw [h]
  rfl

lemma advStepCore_local (split first : Bool) (s : CalcState) (e : EntryMeta) :
    (advStepCore split first s e).localDataSize =
      s.localDataSize +
        (LOCAL_FILE_HEADER_BASE_SIZE + filenameLength e + LOCAL_EXTRA_FIELD_BASE_SIZE) +
        resolvedCompressedSize e +
        (if entryNeedsZip64B e s.localDataSize then DATA_DESCRIPTOR_ZIP64_SIZE
         else DATA_DESCRIPTOR_SIZE) := rfl

lemma advStepCore_central (split first : Bool) (s : CalcState) (e : EntryMeta) :
    (advStepCore split first s e).centralDirectorySize =
      s.centralDirectorySize +
        (CENTRAL_DIRECTORY_HEADER_BASE_SIZE + filenameLength e + commentLength e +
          CENTRAL_EXTRA_FIELD_BASE_SIZE +
          getZip64ExtraFieldSizeCore e first split s.localDataSize) := rfl

lemma advStepCore_needs (split first : Bool) (s : CalcState) (e : EntryMeta) :
    (advStepCore split first s e).needsZip64 =
      (s.needsZip64 || entryNeedsZip64B e s.localDataSize) := rfl

lemma resolvedUncompressedSize_toEntryMeta (s : SpecEntry) :
    resolvedUncompressedSize s.toEntryMeta = s.uncompressedSize := by
  unfold resolvedUncompressedSize SpecEntry.toEntryMeta
  rcases hu : s.uncompressedSize with _ | n <;> simp [jsNumOr]

lemma resolvedCompressedSize_toEntryMeta (s : SpecEntry) :
    resolvedCompressedSize s.toEntryMeta = s.uncompressedSize := by
  unfold resolvedCompressedSize SpecEntry.toEntryMeta
  rcases hu : s.uncompressedSize with _ | n <;> simp [jsNumOr]

lemma filenameLength_toEntryMeta (s : SpecEntry) :
    filenameLength s.toEntryMeta = utf8Length s.name := by
  show utf8Length (if s.name = "" then jsStrOr none "" else s.name) = utf8Length s.name
  split
  · rename_i h
    rw [h]
    rfl
  · rfl

lemma commentLength_toEntryMeta (s : SpecEntry) :
    commentLength s.toEntryMeta = utf8Length s.comment := by
  show (if s.comment = "" then 0 else utf8Length s.comment) = utf8Length s.comment
  split
  · rename_i h
    rw [h]
    rfl
  · rfl

lemma entryOk_toEntryMeta (s : SpecEntry) : entryOk s.toEntryMeta = true := rfl

lemma c1_run (ss : List SpecEntry) (s : CalcState) (hn : s.needsZip64 = false)
    (hl : s.localDataSize + estLocalBytes ss ≤ MAX_32_BITS)
    (hc : s.centralDirectorySize + estCentralBytes ss ≤ MAX_32_BITS) :
    stableFoldCore s (ss.map SpecEntry.toEntryMeta) =
      ⟨false, s.localDataSize + estLocalBytes ss,
        s.centralDirectorySize + estCentralBytes ss⟩ := by
  induction ss generalizing s with
  | nil =>
    have h0 : stableFoldCore s [] = s := rfl
    have h1 : estLocalBytes [] = 0 := rfl
    have h2 : estCentralBytes [] = 0 := rfl
    simp only [List.map_nil, h0, h1, h2]
    exact CalcState.eqOf _ _ hn rfl rfl
  | cons s0 ss ih =>
    have hloc : estLocalBytes (s0 :: ss) =
        (LOCAL_FILE_HEADER_BASE_SIZE + utf8Length s0.name + LOCAL_EXTRA_FIELD_BASE_SIZE +
          s0.uncompressedSize + DATA_DESCRIPTOR_SIZE) + estLocalBytes ss := rfl
    have hcen : estCentralBytes (s0 :: ss) =
        (CENTRAL_DIRECTORY_HEADER_BASE_SIZE + utf8Length s0.name + utf8Length s0.comment +
          LOCAL_EXTRA_FIELD_BASE_SIZE) + estCentralBytes ss := rfl
    rw [hloc] at hl
    rw [hcen] at hc
    have henz : entryNeedsZip64B s0.toEntryMeta s.localDataSize = false := by
      refine entryNeedsZip64B_false _ _ rfl ?_ ?_ ?_
      · rw [resolvedUncompressedSize_toEntryMeta]
        omega
      · rw [resolvedCompressedSize_toEntryMeta]
        omega
      · omega
    have hl2 : (stableStepCore s s0.toEntryMeta).localDataSize =
        s.localDataSize + (LOCAL_FILE_HEADER_BASE_SIZE + utf8Length s0.name +
          LOCAL_EXTRA_FIELD_BASE_SIZE + s0.uncompressedSize + DATA_DESCRIPTOR_SIZE) := by
      rw [stableStepCore_local, if_neg (by simp [henz]), filenameLength_toEntryMeta,
        resolvedCompressedSize_toEntryMeta]
      omega
    have hc2 : (stableStepCore s s0.toEntryMeta).centralDirectorySize =
        s.centralDirectorySize + (CENTRAL_DIRECTORY_HEADER_BASE_SIZE + utf8Length s0.name +
          utf8Length s0.comment + LOCAL_EXTRA_FIELD_BASE_SIZE) := by
      rw [stableStepCore_central, if_neg (by simp [henz]), filenameLength_toEntryMeta,
        commentLength_toEntryMeta]
      omega
    have hd1 : ¬ ((stableStepCore s s0.toEntryMeta).localDataSize > MAX_32_BITS) := by
      rw [hl2]
      omega
    have hd2 : ¬ ((stableStepCore s s0.toEntryMeta).centralDirectorySize > MAX_32_BITS) := by
      rw [hc2]
      omega
    have hneeds : (stableStepCore s s0.toEntryMeta).needsZip64 = false := by
      rw [stableStepCore_needs, hn, henz, decide_eq_false hd1, decide_eq_false hd2]
      rfl
    have hstep : stableStepCore s s0.toEntryMeta =
        ⟨false, s.localDataSize + (LOCAL_FILE_HEADER_BASE_SIZE + utf8Length s0.name +
          LOCAL_EXTRA_FIELD_BASE_SIZE + s0.uncompressedSize + DATA_DESCRIPTOR_SIZE),
          s.centralDirectorySize + (CENTRAL_DIRECTORY_HEADER_BASE_SIZE + utf8Length s0.name +
          utf8Length s0.comment + LOCAL_EXTRA_FIELD_BASE_SIZE)⟩ :=
      CalcState.eqOf _ _ hneeds hl2 hc2
    have hfold : stableFoldCore s ((s0 :: ss).map SpecEntry.toEntryMeta) =
        stableFoldCore (stableStepCore s s0.toEntryMeta) (ss.map SpecEntry.toEntryMeta) := rfl
    rw [hfold, hstep]
    rw [ih ⟨false, s.localDataSize + (LOCAL_FILE_HEADER_BASE_SIZE + utf8Length s0.name +
          LOCAL_EXTRA_FIELD_BASE_SIZE + s0.uncompressedSize + DATA_DESCRIPTOR_SIZE),
          s.centralDirectorySize + (CENTRAL_DIRECTORY_HEADER_BASE_SIZE + utf8Length s0.name +
          utf8Length s0.comment + LOCAL_EXTRA_FIELD_BASE_SIZE)⟩ rfl (by simp only; omega)
      (by simp only; omega)]
    refine CalcState.eqOf _ _ rfl ?_ ?_ <;> simp only <;> omega

lemma calculateZipStreamSize_eq (entries : List EntryMeta) (options : CalcOptions)
    (h : ∀ e ∈ entries, entryOk e = true) :
    calculateZipStreamSize entries options =
      some ((stableFoldCore ⟨options.zip64, 0, 0⟩ entries).localDataSize +
        (stableFoldCore ⟨options.zip64, 0, 0⟩ entries).centralDirectorySize +
        (if ((stableFoldCore ⟨options.zip64, 0, 0⟩ entries).needsZip64 ||
            decide (entries.length > MAX_16_BITS)) then
          ZIP64_END_OF_CENTRAL_DIR_TOTAL_LENGTH
         else END_OF_CENTRAL_DIR_LENGTH) + options.commentSize) := by
  unfold calculateZipStreamSize
  simp only [stableRun_ok _ _ h]

lemma calculateZipStreamSizeAdvanced_eq (entries : List EntryMeta)
    (options : CalcOptions) (h : ∀ e ∈ entries, entryOk e = true) :
    calculateZipStreamSizeAdvanced entries options =
      some ((advFoldCore options.splitArchive true ⟨options.zip64, 0, 0⟩ entries).localDataSize +
        (advFoldCore options.splitArchive true ⟨options.zip64, 0, 0⟩ entries).centralDirectorySize +
        (if ((advFoldCore options.splitArchive true ⟨options.zip64, 0, 0⟩ entries).needsZip64 ||
            decide (entries.length > MAX_16_BITS)) then
          ZIP64_END_OF_CENTRAL_DIR_LENGTH + ZIP64_END_OF_CENTRAL_DIR_LOCATOR_LENGTH +
            END_OF_CENTRAL_DIR_LENGTH
         else END_OF_CENTRAL_DIR_LENGTH) + options.commentSize) := by
  unfold calculateZipStreamSizeAdvanced
  simp only [advRun_ok _ _ _ _ h]

lemma archiveIsZip64_eq (entries : List EntryMeta) (options : CalcOptions)
    (h : ∀ e ∈ entries, entryOk e = true) :
    archiveIsZip64 entries options =
      some ((stableFoldCore ⟨options.zip64, 0, 0⟩ entries).needsZip64 ||
        decide (entries.length > MAX_16_BITS)) := by
  unfold archiveIsZip64
  simp only [stableRun_ok _ _ h]

lemma est_vs_assembler (ss : List SpecEntry) (c : Nat) :
    estLocalBytes ss + estCentralBytes ss + END_OF_CENTRAL_DIR_LENGTH + c =
      assemblerEmittedSize ss c + 12 * ss.length := by
  induction ss with
  | nil =>
    simp [estLocalBytes, estCentralBytes, assemblerEmittedSize]
  | cons s0 ss ih =>
    have h1 : estLocalBytes (s0 :: ss) =
        (LOCAL_FILE_HEADER_BASE_SIZE + utf8Length s0.name + LOCAL_EXTRA_FIELD_BASE_SIZE +
          s0.uncompressedSize + DATA_DESCRIPTOR_SIZE) + estLocalBytes ss := rfl
    have h2 : estCentralBytes (s0 :: ss) =
        (CENTRAL_DIRECTORY_HEADER_BASE_SIZE + utf8Length s0.name + utf8Length s0.comment +
          LOCAL_EXTRA_FIELD_BASE_SIZE) + estCentralBytes ss := rfl
    have h3 : assemblerEmittedSize (s0 :: ss) c =
        (LOCAL_FILE_HEADER_BASE_SIZE + utf8Length s0.name +
          (EXTENDED_TIMESTAMP_LOCAL_SIZE + NTFS_TIMESTAMP_LOCAL_SIZE) + s0.uncompressedSize) +
        (CENTRAL_DIRECTORY_HEADER_BASE_SIZE + utf8Length s0.name +
          (EXTENDED_TIMESTAMP_LOCAL_SIZE + NTFS_TIMESTAMP_LOCAL_SIZE) + utf8Length s0.comment) +
        assemblerEmittedSize ss c := rfl
    have h4 : LOCAL_EXTRA_FIELD_BASE_SIZE =
        EXTENDED_TIMESTAMP_LOCAL_SIZE + NTFS_TIMESTAMP_LOCAL_SIZE := rfl
    have h5 : DATA_DESCRIPTOR_SIZE = 12 := rfl
    rw [h1, h2, h3, h4, h5, List.length_cons]
    omega

/-- C1, counterexample.  The claim says the estimator equals the bytes the
archive assembler emits for all-store archives with known sizes, with zero
tolerance.  For the single store entry `{name := "a", size := 0}` the
spec-modelled assembler emits 190 bytes (30 + 1 + 45 local, 46 + 1 + 45
central, 22 tail; a known u32 size writes true sizes and no data descriptor,
spec §4.3), but `calculateZipStreamSize` returns 202: it unconditionally
accounts a 12-byte data descriptor for the entry. -/
theorem c1_estimator_vs_assembler_counterexample :
    calculateZipStreamSize [SpecEntry.toEntryMeta c1Entry] defaultOptions = some 202 ∧
      assemblerEmittedSize [c1Entry] 0 = 190 ∧ (202 : Nat) ≠ 190 :=
  ⟨by decide, by decide, by decide⟩

/-- C1, amended.  For every all-store archive with known `uncompressedSize`
(below every ZIP64 threshold), the stable estimator's result equals the bytes
the spec-modelled assembler emits plus exactly 12 bytes per entry: the data
descriptor the estimator unconditionally accounts and the assembler does not
emit for a store entry whose size is known and fits u32. -/
theorem c1_estimator_vs_assembler (ss : List SpecEntry) (commentSize : Nat)
    (hsize : assemblerEmittedSize ss 0 + 12 * ss.length ≤ 4294967294)
    (hcount : ss.length ≤ 65534) :
    calculateZipStreamSize (ss.map SpecEntry.toEntryMeta)
        (mkOptions false commentSize false) =
      some (assemblerEmittedSize ss commentSize + 12 * ss.length) := by
  have hok : ∀ e ∈ ss.map SpecEntry.toEntryMeta, entryOk e = true := by
    intro e he
    rcases List.mem_map.mp he with ⟨x, hx, rfl⟩
    exact entryOk_toEntryMeta x
  have hrel0 := est_vs_assembler ss 0
  have hrelC := est_vs_assembler ss commentSize
  have hM : MAX_32_BITS = 4294967294 := rfl
  have hE : END_OF_CENTRAL_DIR_LENGTH = 22 := rfl
  have hl : (0 : Nat) + estLocalBytes ss ≤ MAX_32_BITS := by omega
  have hc : (0 : Nat) + estCentralBytes ss ≤ MAX_32_BITS := by omega
  have hrun := c1_run ss ⟨false, 0, 0⟩ rfl hl hc
  rw [calculateZipStreamSize_eq _ _ hok]
  have hz : (mkOptions false commentSize false).zip64 = false := rfl
  have hcs : (mkOptions false commentSize false).commentSize = commentSize := rfl
  rw [hz, hcs, hrun]
  have hlen : (ss.map SpecEntry.toEntryMeta).length = ss.length := List.length_map _ _
  rw [hlen]
  have h16 : ¬ (ss.length > MAX_16_BITS) := by
    have : MAX_16_BITS = 65534 := rfl
    omega
  rw [decide_eq_false h16]
  simp only [Bool.or_false]
  show some (0 + estLocalBytes ss + (0 + estCentralBytes ss) +
    (if (false : Bool) then ZIP64_END_OF_CENTRAL_DIR_TOTAL_LENGTH
     else END_OF_CENTRAL_DIR_LENGTH) + commentSize) = _
  rw [if_neg (by simp)]
  congr 1
  omega

/-- C1, witness: the amended theorem applied to the two-entry archive
`[{name := "a", size := 0}, {name := "bc", size := 7}]` with a 5-byte archive
comment. -/
theorem c1_estimator_vs_assembler_witness :
    calculateZipStreamSize
        ([⟨"a", 0, ""⟩, ⟨"bc", 7, "x"⟩].map SpecEntry.toEntryMeta)
        (mkOptions false 5 false) =
      some (assemblerEmittedSize [⟨"a", 0, ""⟩, ⟨"bc", 7, "x"⟩] 5 + 12 * 2) :=
  c1_estimator_vs_assembler [⟨"a", 0, ""⟩, ⟨"bc", 7, "x"⟩] 5 (by decide) (by decide)

/-- C4, counterexample.  The claim says a non-ZIP64 entry's data descriptor is
accounted as 16 bytes (signature + CRC + sizes) and a ZIP64 entry's as 24.
For the store entry `plainEntry` (name length 1, size 0) the estimator returns
202 = 30 + 1 + 45 + 0 + **12** + 46 + 1 + 45 + 22, not the 206 a 16-byte
descriptor would give; for the ZIP64-flagged `forcedZip64Entry` it returns
318 = 30 + 1 + 45 + 0 + **20** + 46 + 1 + 77 + 98, not the 322 a 24-byte
descriptor would give. -/
theorem c4_data_descriptor_counterexample :
    calculateZipStreamSize [plainEntry] defaultOptions = some 202 ∧
      (30 + 1 + 45 + 0 + 16 + (46 + 1 + 45) + 22 : Nat) = 206 ∧ (202 : Nat) ≠ 206 ∧
      calculateZipStreamSize [forcedZip64Entry] defaultOptions = some 318 ∧
      (30 + 1 + 45 + 0 + 24 + (46 + 1 + 45 + 32) + 98 : Nat) = 322 ∧ (318 : Nat) ≠ 322 :=
  ⟨by decide, by decide, by decide, by decide, by decide, by decide⟩

/-- C4, amended.  For every entry the estimators account a data descriptor of
exactly 12 bytes (CRC-32 + compressed size + uncompressed size, no signature)
when the entry is not ZIP64, and 20 bytes when it is: appending an entry to the
stable calculator's loop grows the local byte tally by header + filename +
45-byte extra field + payload + (20 if ZIP64 else 12), and one step of the
advanced calculator does the same with its named constants. -/
theorem c4_data_descriptor :
    (∀ (es : List EntryMeta) (e : EntryMeta) (s : CalcState),
      (stableFoldCore s (es ++ [e])).localDataSize =
        (stableFoldCore s es).localDataSize +
          (LOCAL_FILE_HEADER_BASE_SIZE + filenameLength e + LOCAL_EXTRA_FIELD_BASE_SIZE) +
          resolvedCompressedSize e +
          (if entryNeedsZip64B e (stableFoldCore s es).localDataSize then 20
           else DATA_DESCRIPTOR_SIZE)) ∧
    (∀ (split first : Bool) (s : CalcState) (e : EntryMeta),
      (advStepCore split first s e).localDataSize =
        s.localDataSize +
          (LOCAL_FILE_HEADER_BASE_SIZE + filenameLength e + LOCAL_EXTRA_FIELD_BASE_SIZE) +
          resolvedCompressedSize e +
          (if entryNeedsZip64B e s.localDataSize then DATA_DESCRIPTOR_ZIP64_SIZE
           else DATA_DESCRIPTOR_SIZE)) := by
  constructor
  · intro es e s
    rw [stableFoldCore_append, stableStepCore_local]
  · intro split first s e
    exact advStepCore_local split first s e

/-- C5, confirmed.  In `getZip64ExtraFieldSize`, whenever an entry is
ZIP64-enabled its `zip64Offset` component is on, so a non-first entry's ZIP64
extra field is exactly 8 bytes (the local-header-offset field) larger than the
same entry's field in first position, where the offset field is suppressed. -/
theorem c5_first_entry_offset_suppressed (e : EntryMeta) (split : Bool) (off : Nat)
    (hok : entryOk e = true) (hz : zip64EnabledB e off = true) :
    getZip64ExtraFieldSize e false split off =
      (getZip64ExtraFieldSize e true split off).map (fun z => z + 8) := by
  rw [getZip64ExtraFieldSize_ok e false split off hok,
    getZip64ExtraFieldSize_ok e true split off hok]
  show some _ = some _
  congr 1
  unfold getZip64ExtraFieldSizeCore
  rw [hz]
  simp
  omega

/-- C5, witness: the theorem applied to a ZIP64-flagged entry at offset 0;
the second-position field (28 bytes) is 8 larger than the first-position field
(20 bytes). -/
theorem c5_first_entry_offset_suppressed_witness :
    getZip64ExtraFieldSize forcedZip64Entry false false 0 =
      (getZip64ExtraFieldSize forcedZip64Entry true false 0).map (fun z => z + 8) :=
  c5_first_entry_offset_suppressed forcedZip64Entry false 0 (by decide) (by decide)

/-- C6, counterexample.  A non-first directory entry of a non-split archive
with zero sizes, no ZIP64 flag, and a local-header offset of 2^32 (past the
u32 range) is ZIP64-promoted only because of its offset; the claim — and the
calculators' own doc comments ("12 bytes for folders") — say its ZIP64 extra
field is 4 + 8 = 12 bytes, but `getZip64ExtraFieldSize` returns 28: once
`zip64Enabled` holds, every component tests `zip64Enabled || ...` and is
therefore included, 4 + 8 + 8 + 8. -/
theorem c6_directory_extra_field_counterexample :
    getZip64ExtraFieldSize dirEntry false false 4294967296 = some 28 ∧ (28 : Nat) ≠ 12 :=
  ⟨by decide, by decide⟩

/-- C6, amended.  For every non-first directory entry of a non-split archive
whose uncompressed and compressed sizes resolve to 0, whose ZIP64 flag is
unset and whose local-header offset exceeds 0xFFFFFFFE, the advanced
estimator accounts a ZIP64 extra field of exactly 28 bytes (4-byte header
plus all three 8-byte fields), matching its own unit test, not the 12 bytes
of the claim. -/
theorem c6_directory_extra_field_28 (e : EntryMeta) (off : Nat)
    (hd : e.directory = true) (hz : e.zip64 = false)
    (hun : resolvedUncompressedSize e = 0) (hco : resolvedCompressedSize e = 0)
    (hoff : off > 4294967294) :
    getZip64ExtraFieldSize e false false off = some 28 := by
  have hok : entryOk e = true := by
    unfold entryOk
    rw [hd]
    rfl
  rw [getZip64ExtraFieldSize_ok e false false off hok]
  have hzen : zip64EnabledB e off = true := by
    unfold zip64EnabledB
    rw [hz, hun, hco]
    have hM : MAX_32_BITS = 4294967294 := rfl
    rw [hM]
    simp
    omega
  show some _ = some _
  congr 1
  unfold getZip64ExtraFieldSizeCore
  rw [hzen]
  simp

/-- C6, witness: the amended theorem applied to `dirEntry` at offset 2^32. -/
theorem c6_directory_extra_field_28_witness :
    getZip64ExtraFieldSize dirEntry false false 4294967296 = some 28 :=
  c6_directory_extra_field_28 dirEntry 4294967296 (by decide) (by decide) (by decide)
    (by decide) (by decide)

/-- C7, counterexample.  The claim says an entry whose ZIP64 promotion is
possible gets a local extra field accounting strictly larger than the 45
timestamp bytes (space reserved for a ZIP64 local extra field).  For the
ZIP64-flagged entry `forcedZip64Entry` the estimator's total decomposes with a
local extra field of exactly 45 bytes — ZIP64 bytes appear only in the central
directory accounting (the 32 below) — and 45 does not exceed 45. -/
theorem c7_local_extra_counterexample :
    calculateZipStreamSize [forcedZip64Entry] defaultOptions =
      some ((LOCAL_FILE_HEADER_BASE_SIZE + 1 + 45) + 0 + 20 +
        (CENTRAL_DIRECTORY_HEADER_BASE_SIZE + 1 + (45 + 32)) +
        ZIP64_END_OF_CENTRAL_DIR_TOTAL_LENGTH + 0) ∧ ¬ ((45 : Nat) > 45) :=
  ⟨by decide, by decide⟩

/-- C7, amended.  The stable estimator accounts a fixed 45-byte local extra
field (extended timestamp 9 + NTFS timestamp 36) for every entry — including
entries whose ZIP64 promotion is possible — and never reserves ZIP64 local
extra space: its local tally is exactly the sum of
30 + filename + 45 + payload + descriptor over the entries. -/
theorem c7_local_extra :
    (∀ (es : List EntryMeta) (s : CalcState),
      (stableFoldCore s es).localDataSize =
        s.localDataSize + localBytesFrom s.localDataSize es) ∧
    LOCAL_EXTRA_FIELD_BASE_SIZE = EXTENDED_TIMESTAMP_LOCAL_SIZE + NTFS_TIMESTAMP_LOCAL_SIZE ∧
    ¬ (LOCAL_EXTRA_FIELD_BASE_SIZE > 45) := by
  refine ⟨?_, rfl, by decide⟩
  intro es s
  induction es generalizing s with
  | nil => rfl
  | cons e es ih =>
    have hstep : (stableStepCore s e).localDataSize =
        s.localDataSize + entryLocalBytes e s.localDataSize := by
      rw [stableStepCore_local]
      unfold entryLocalBytes
      omega
    have hfold : (stableFoldCore s (e :: es)).localDataSize =
        (stableFoldCore (stableStepCore s e) es).localDataSize := rfl
    rw [hfold, ih (stableStepCore s e), hstep]
    have hlb : localBytesFrom s.localDataSize (e :: es) =
        entryLocalBytes e s.localDataSize +
          localBytesFrom (s.localDataSize + entryLocalBytes e s.localDataSize) es := rfl
    rw [hlb]
    omega

lemma adv_eq_stable_run : ∀ (es : List EntryMeta) (split first : Bool) (s : CalcState),
    (∀ e ∈ es, e.zip64 = false) →
    (∀ e ∈ es, resolvedUncompressedSize e ≤ MAX_32_BITS ∧
      resolvedCompressedSize e ≤ MAX_32_BITS) →
    (stableFoldCore s es).localDataSize ≤ MAX_32_BITS →
    (stableFoldCore s es).centralDirectorySize ≤ MAX_32_BITS →
    advRun split first s es = stableRun s es ∧
      advFoldCore split first s es = stableFoldCore s es := by
  intro es
  induction es with
  | nil =>
    intro split first s _ _ _ _
    exact ⟨rfl, rfl⟩
  | cons e es ih =>
    intro split first s hflags hsizes hl hc
    have hfe : e.zip64 = false := hflags e (List.mem_cons_self e es)
    have hse := hsizes e (List.mem_cons_self e es)
    have hflags2 : ∀ x ∈ es, x.zip64 = false :=
      fun x hx => hflags x (List.mem_cons_of_mem e hx)
    have hsizes2 : ∀ x ∈ es, resolvedUncompressedSize x ≤ MAX_32_BITS ∧
        resolvedCompressedSize x ≤ MAX_32_BITS :=
      fun x hx => hsizes x (List.mem_cons_of_mem e hx)
    have hl2 : (stableFoldCore (stableStepCore s e) es).localDataSize ≤ MAX_32_BITS := hl
    have hc2 : (stableFoldCore (stableStepCore s e) es).centralDirectorySize ≤ MAX_32_BITS := hc
    have hsl : s.localDataSize ≤ MAX_32_BITS :=
      le_trans (le_trans (stableStepCore_local_le s e)
        (stableFoldCore_local_le es (stableStepCore s e))) hl2
    have henz : entryNeedsZip64B e s.localDataSize = false :=
      entryNeedsZip64B_false e s.localDataSize hfe hse.1 hse.2 hsl
    have hzen : zip64EnabledB e s.localDataSize = false :=
      zip64EnabledB_false e s.localDataSize hfe hse.1 hse.2 hsl
    have hd1 : ¬ ((stableStepCore s e).localDataSize > MAX_32_BITS) := by
      have := stableFoldCore_local_le es (stableStepCore s e)
      omega
    have hd2 : ¬ ((stableStepCore s e).centralDirectorySize > MAX_32_BITS) := by
      have := stableFoldCore_central_le es (stableStepCore s e)
      omega
    have hstepeq : advStepCore split first s e = stableStepCore s e := by
      have hloc : (advStepCore split first s e).localDataSize =
          (stableStepCore s e).localDataSize := by
        rw [advStepCore_local, stableStepCore_local, henz]
        rfl
      have hcen : (advStepCore split first s e).centralDirectorySize =
          (stableStepCore s e).centralDirectorySize := by
        rw [advStepCore_central, stableStepCore_central, henz,
          getZip64ExtraFieldSizeCore_of_disabled e first split s.localDataSize hzen]
        have hce : CENTRAL_EXTRA_FIELD_BASE_SIZE = LOCAL_EXTRA_FIELD_BASE_SIZE := rfl
        rw [hce]
        simp only [Bool.false_eq_true, if_false]
        omega
      have hne : (advStepCore split first s e).needsZip64 =
          (stableStepCore s e).needsZip64 := by
        rw [advStepCore_needs, stableStepCore_needs, henz,
          decide_eq_false hd1, decide_eq_false hd2]
        simp
      exact CalcState.eqOf _ _ hne hloc hcen
    constructor
    · rcases hoe : isDirectoryJS e with _ | b
      · have ha : advStep split first s e = none := by
          unfold advStep
          rw [hoe]
          rfl
        have hs : stableStep s e = none := by
          unfold stableStep
          rw [hoe]
          rfl
        simp [advRun, stableRun, ha, hs]
      · have ha : advStep split first s e = some (advStepCore split first s e) := by
          unfold advStep getZip64ExtraFieldSize
          rw [hoe]
          rfl
        have hs : stableStep s e = some (stableStepCore s e) := by
          unfold stableStep
          rw [hoe]
          rfl
        simp only [advRun, stableRun, ha, hs]
        rw [hstepeq]
        exact (ih split false (stableStepCore s e) hflags2 hsizes2 hl2 hc2).1
    · have h1 : advFoldCore split first s (e :: es) =
          advFoldCore split false (advStepCore split first s e) es := rfl
      have h2 : stableFoldCore s (e :: es) = stableFoldCore (stableStepCore s e) es := rfl
      rw [h1, h2, hstepeq]
      exact (ih split false (stableStepCore s e) hflags2 hsizes2 hl2 hc2).2

/-- C9, confirmed.  When no entry carries the `zip64` flag, the archive-level
`zip64` option is off, every uncompressed and compressed size, every running
offset, and the central directory tally stay within the 32-bit threshold, the
entry count is at most 65,535 and the archive is not split, the stable and the
advanced calculators return the same number. -/
theorem c9_stable_eq_advanced (entries : List EntryMeta) (options : CalcOptions)
    (hz : options.zip64 = false) (hsplit : options.splitArchive = false)
    (hflags : ∀ e ∈ entries, e.zip64 = false)
    (hsizes : ∀ e ∈ entries, resolvedUncompressedSize e ≤ 4294967294 ∧
      resolvedCompressedSize e ≤ 4294967294)
    (hoff : finalLocalDataSize entries ≤ 4294967294)
    (hcd : finalCentralDirectorySize entries ≤ 4294967294)
    (hcount : entries.length ≤ 65535) :
    calculateZipStreamSize entries options = calculateZipStreamSizeAdvanced entries options := by
  have hM : MAX_32_BITS = 4294967294 := rfl
  have hfl : (stableFoldCore ⟨options.zip64, 0, 0⟩ entries).localDataSize ≤ MAX_32_BITS := by
    rw [hz, hM]
    exact hoff
  have hfc : (stableFoldCore ⟨options.zip64, 0, 0⟩ entries).centralDirectorySize ≤
      MAX_32_BITS := by
    rw [hz, hM]
    exact hcd
  have hsizesM : ∀ e ∈ entries, resolvedUncompressedSize e ≤ MAX_32_BITS ∧
      resolvedCompressedSize e ≤ MAX_32_BITS := by
    rw [hM]
    exact hsizes
  have hrun := (adv_eq_stable_run entries options.splitArchive true
    ⟨options.zip64, 0, 0⟩ hflags hsizesM hfl hfc).1
  unfold calculateZipStreamSize calculateZipStreamSizeAdvanced
  simp only [hrun]
  rcases stableRun (⟨options.zip64, 0, 0⟩ : CalcState) entries with _ | s
  · rfl
  · rfl

/-- C9, witness: the theorem applied to a concrete two-entry archive; both
calculators return 396 bytes. -/
theorem c9_stable_eq_advanced_witness :
    calculateZipStreamSize [mkFileEntry "a" 3, mkFileEntry "bb" 4] (mkOptions false 5 false) =
      calculateZipStreamSizeAdvanced [mkFileEntry "a" 3, mkFileEntry "bb" 4]
        (mkOptions false 5 false) :=
  c9_stable_eq_advanced [mkFileEntry "a" 3, mkFileEntry "bb" 4] (mkOptions false 5 false)
    (by decide) (by decide) (by decide) (by decide) (by decide) (by decide) (by decide)

/-- C10, confirmed.  On any entry list in which every entry carries a string
`filename` (possibly empty) — the directory test dereferences
`entry.filename` before the `entry.name` fallback applies — both calculators
are total: they return a number and no TypeError is reached. -/
theorem c10_total (entries : List EntryMeta) (options : CalcOptions)
    (h : ∀ e ∈ entries, e.filename.isSome = true) :
    (∃ n, calculateZipStreamSize entries options = some n) ∧
      (∃ n, calculateZipStreamSizeAdvanced entries options = some n) := by
  have hok : ∀ e ∈ entries, entryOk e = true := by
    intro e he
    unfold entryOk
    rw [h e he]
    simp
  exact ⟨⟨_, calculateZipStreamSize_eq entries options hok⟩,
    ⟨_, calculateZipStreamSizeAdvanced_eq entries options hok⟩⟩

/-- C10, witness: the theorem applied to a file entry plus a directory entry;
neither calculator returns an error. -/
theorem c10_total_witness :
    calculateZipStreamSize [plainEntry, dirEntry] defaultOptions ≠ none ∧
      calculateZipStreamSizeAdvanced [plainEntry, dirEntry] defaultOptions ≠ none := by
  obtain ⟨⟨n, hn⟩, ⟨m, hm⟩⟩ := c10_total [plainEntry, dirEntry] defaultOptions (by decide)
  rw [hn, hm]
  exact ⟨Option.some_ne_none n, Option.some_ne_none m⟩

lemma filenameLength_set (e : EntryMeta) (f : String) (hf : f ≠ "") :
    filenameLength { e with filename := some f } = utf8Length f := by
  show utf8Length (if f = "" then jsStrOr e.name "" else f) = utf8Length f
  rw [if_neg hf]

lemma stableStepCore_filename_congr (s : CalcState) (e : EntryMeta) (f g : String)
    (hf : f ≠ "") (hg : g ≠ "") (hlen : utf8Length f = utf8Length g) :
    stableStepCore s { e with filename := some f } =
      stableStepCore s { e with filename := some g } := by
  have h1 : filenameLength { e with filename := some f } =
      filenameLength { e with filename := some g } := by
    rw [filenameLength_set e f hf, filenameLength_set e g hg, hlen]
  have hcm : commentLength { e with filename := some f } =
      commentLength { e with filename := some g } := rfl
  have henz : entryNeedsZip64B { e with filename := some f } s.localDataSize =
      entryNeedsZip64B { e with filename := some g } s.localDataSize := rfl
  have hco : resolvedCompressedSize { e with filename := some f } =
      resolvedCompressedSize { e with filename := some g } := rfl
  have hloc : (stableStepCore s { e with filename := some f }).localDataSize =
      (stableStepCore s { e with filename := some g }).localDataSize := by
    rw [stableStepCore_local, stableStepCore_local, h1, henz, hco]
  have hcen : (stableStepCore s { e with filename := some f }).centralDirectorySize =
      (stableStepCore s { e with filename := some g }).centralDirectorySize := by
    rw [stableStepCore_central, stableStepCore_central, h1, henz, hcm]
  have hne : (stableStepCore s { e with filename := some f }).needsZip64 =
      (stableStepCore s { e with filename := some g }).needsZip64 := by
    rw [stableStepCore_needs, stableStepCore_needs, henz, hloc, hcen]
  exact CalcState.eqOf _ _ hne hloc hcen

lemma stableStep_filename_congr (s : CalcState) (e : EntryMeta) (f g : String)
    (hf : f ≠ "") (hg : g ≠ "") (hlen : utf8Length f = utf8Length g) :
    stableStep s { e with filename := some f } =
      stableStep s { e with filename := some g } := by
  have hokf : entryOk { e with filename := some f } = true := by simp [entryOk]
  have hokg : entryOk { e with filename := some g } = true := by simp [entryOk]
  rw [stableStep_ok _ _ hokf, stableStep_ok _ _ hokg,
    stableStepCore_filename_congr s e f g hf hg hlen]

lemma stableRun_filename_congr (pre post : List EntryMeta) (e : EntryMeta)
    (f g : String) (hf : f ≠ "") (hg : g ≠ "") (hlen : utf8Length f = utf8Length g) :
    ∀ s, stableRun s (pre ++ { e with filename := some f } :: post) =
      stableRun s (pre ++ { e with filename := some g } :: post) := by
  induction pre with
  | nil =>
    intro s
    show stableRun s ({ e with filename := some f } :: post) =
      stableRun s ({ e with filename := some g } :: post)
    simp only [stableRun]
    rw [stableStep_filename_congr s e f g hf hg hlen]
  | cons p pre ih =>
    intro s
    show stableRun s (p :: (pre ++ { e with filename := some f } :: post)) =
      stableRun s (p :: (pre ++ { e with filename := some g } :: post))
    simp only [stableRun]
    rcases stableStep s p with _ | t
    · rfl
    · exact ih t

/-- C8, confirmed.  The estimator measures names and comments in UTF-8 bytes,
not characters: (1) replacing an entry's filename by any other nonempty name
with the same UTF-8 byte length leaves the result unchanged, wherever the
entry sits; (2) a lone zero-size file whose name has m UTF-8 bytes costs
200 + 2m bytes (m in the local header and m in the central directory); and
(3) `"a"` and `"é"` have the same character count yet give different totals
(202 versus 204, since `"é"` encodes to 2 bytes). -/
theorem c8_utf8_byte_length :
    (∀ (pre post : List EntryMeta) (e : EntryMeta) (f g : String) (o : CalcOptions),
      f ≠ "" → g ≠ "" → utf8Length f = utf8Length g →
      calculateZipStreamSize (pre ++ { e with filename := some f } :: post) o =
        calculateZipStreamSize (pre ++ { e with filename := some g } :: post) o) ∧
    (∀ f : String, f ≠ "" → utf8Length f ≤ 65535 →
      calculateZipStreamSize [mkFileEntry f 0] defaultOptions =
        some (200 + 2 * utf8Length f)) ∧
    ("a".length = "é".length ∧
      calculateZipStreamSize [mkFileEntry "a" 0] defaultOptions = some 202 ∧
      calculateZipStreamSize [mkFileEntry "é" 0] defaultOptions = some 204) := by
  refine ⟨?_, ?_, by decide, by decide, by decide⟩
  · intro pre post e f g o hf hg hlen
    unfold calculateZipStreamSize
    have hrun := stableRun_filename_congr pre post e f g hf hg hlen ⟨o.zip64, 0, 0⟩
    have hlen2 : (pre ++ { e with filename := some f } :: post).length =
        (pre ++ { e with filename := some g } :: post).length := by simp
    simp only [hrun, hlen2]
  · intro f hf hbound
    have hok : ∀ x ∈ [mkFileEntry f 0], entryOk x = true := by
      intro x hx
      rw [List.mem_singleton.mp hx]
      rfl
    rw [calculateZipStreamSize_eq _ _ hok]
    have hfn : filenameLength (mkFileEntry f 0) = utf8Length f := by
      show utf8Length (if f = "" then jsStrOr none "" else f) = utf8Length f
      rw [if_neg hf]
    have hun : resolvedUncompressedSize (mkFileEntry f 0) = 0 := rfl
    have hco : resolvedCompressedSize (mkFileEntry f 0) = 0 := rfl
    have hcm : commentLength (mkFileEntry f 0) = 0 := rfl
    have hfold : stableFoldCore ⟨defaultOptions.zip64, 0, 0⟩ [mkFileEntry f 0] =
        stableStepCore ⟨false, 0, 0⟩ (mkFileEntry f 0) := rfl
    have henz : entryNeedsZip64B (mkFileEntry f 0)
        ((⟨false, 0, 0⟩ : CalcState).localDataSize) = false := by
      refine entryNeedsZip64B_false _ _ rfl ?_ ?_ ?_
      · rw [hun]
        exact Nat.zero_le _
      · rw [hco]
        exact Nat.zero_le _
      · exact Nat.zero_le _
    have hl : (stableStepCore ⟨false, 0, 0⟩ (mkFileEntry f 0)).localDataSize =
        87 + utf8Length f := by
      rw [stableStepCore_local, hfn, hco, henz]
      have hL : LOCAL_FILE_HEADER_BASE_SIZE = 30 := rfl
      have hX : LOCAL_EXTRA_FIELD_BASE_SIZE = 45 := rfl
      have hD : DATA_DESCRIPTOR_SIZE = 12 := rfl
      rw [hL, hX, hD]
      simp only [Bool.false_eq_true, if_false]
      omega
    have hcn : (stableStepCore ⟨false, 0, 0⟩ (mkFileEntry f 0)).centralDirectorySize =
        91 + utf8Length f := by
      rw [stableStepCore_central, hfn, hcm, henz]
      have hC : CENTRAL_DIRECTORY_HEADER_BASE_SIZE = 46 := rfl
      have hX : LOCAL_EXTRA_FIELD_BASE_SIZE = 45 := rfl
      rw [hC, hX]
      simp only [Bool.false_eq_true, if_false]
      omega
    have hM : MAX_32_BITS = 4294967294 := rfl
    have hne : (stableStepCore ⟨false, 0, 0⟩ (mkFileEntry f 0)).needsZip64 = false := by
      rw [stableStepCore_needs, henz, decide_eq_false (by rw [hl]; omega),
        decide_eq_false (by rw [hcn]; omega)]
      rfl
    have hcount : decide (([mkFileEntry f 0] : List EntryMeta).length > MAX_16_BITS) = false := by
      have h16 : MAX_16_BITS = 65534 := rfl
      rw [decide_eq_false]
      rw [List.length_singleton, h16]
      omega
    rw [hfold, hl, hcn, hne, hcount]
    simp only [Bool.or_self, Bool.false_eq_true, if_false]
    have hE : END_OF_CENTRAL_DIR_LENGTH = 22 := rfl
    have hcz : defaultOptions.commentSize = 0 := rfl
    rw [hE, hcz]
    congr 1
    omega

/-- C8, witness: the invariance part applied to two 2-byte names and the
formula part applied to the 2-byte name `"é"`. -/
theorem c8_utf8_byte_length_witness :
    calculateZipStreamSize ([] ++ { plainEntry with filename := some "ab" } :: [])
        defaultOptions =
      calculateZipStreamSize ([] ++ { plainEntry with filename := some "cd" } :: [])
        defaultOptions ∧
    calculateZipStreamSize [mkFileEntry "é" 0] defaultOptions =
      some (200 + 2 * utf8Length "é") :=
  ⟨c8_utf8_byte_length.1 [] [] plainEntry "ab" "cd" defaultOptions (by decide) (by decide)
      (by decide),
    c8_utf8_byte_length.2.1 "é" (by decide) (by decide)⟩

lemma exists_mem_append_singleton (l : List EntryMeta) (a : EntryMeta)
    (p : EntryMeta → Prop) :
    (∃ x ∈ l ++ [a], p x) ↔ (∃ x ∈ l, p x) ∨ p a := by
  constructor
  · rintro ⟨x, hx, hp⟩
    rcases List.mem_append.mp hx with h | h
    · exact Or.inl ⟨x, h, hp⟩
    · rw [List.mem_singleton.mp h] at hp
      exact Or.inr hp
  · rintro (⟨x, hx, hp⟩ | hp)
    · exact ⟨x, List.mem_append.mpr (Or.inl hx), hp⟩
    · exact ⟨a, List.mem_append.mpr (Or.inr (List.mem_singleton.mpr rfl)), hp⟩

lemma exists_lt_succ_iff (n : Nat) (p : Nat → Prop) :
    (∃ i, i < n + 1 ∧ p i) ↔ (∃ i, i < n ∧ p i) ∨ p n := by
  constructor
  · rintro ⟨i, hi, hp⟩
    rcases Nat.lt_succ_iff_lt_or_eq.mp hi with h | h
    · exact Or.inl ⟨i, h, hp⟩
    · subst h
      exact Or.inr hp
  · rintro (⟨i, hi, hp⟩ | hp)
    · exact ⟨i, Nat.lt_succ_of_lt hi, hp⟩
    · exact ⟨n, Nat.lt_succ_self n, hp⟩

lemma localHeaderOffset_append (es : List EntryMeta) (e : EntryMeta) (i : Nat)
    (h : i ≤ es.length) :
    localHeaderOffset (es ++ [e]) i = localHeaderOffset es i := by
  unfold localHeaderOffset
  rw [List.take_append_of_le_length h]

lemma localHeaderOffset_append_self (es : List EntryMeta) (e : EntryMeta) :
    localHeaderOffset (es ++ [e]) es.length = finalLocalDataSize es := by
  unfold localHeaderOffset
  rw [List.take_left]

lemma stableFoldCore_local_eq_final (es : List EntryMeta) (b : Bool) :
    (stableFoldCore ⟨b, 0, 0⟩ es).localDataSize = finalLocalDataSize es :=
  (stableFoldCore_numeric es ⟨b, 0, 0⟩ ⟨false, 0, 0⟩ rfl rfl).1

lemma stableFoldCore_central_eq_final (es : List EntryMeta) (b : Bool) :
    (stableFoldCore ⟨b, 0, 0⟩ es).centralDirectorySize = finalCentralDirectorySize es :=
  (stableFoldCore_numeric es ⟨b, 0, 0⟩ ⟨false, 0, 0⟩ rfl rfl).2

lemma or_shuffle (PA PB PO PL PC Pz Pu Pc PL2 PC2 : Prop) (hC : PC → PC2) :
    (((PA ∨ PB ∨ PO ∨ PL ∨ PC) ∨ (Pz ∨ Pu ∨ Pc ∨ PL)) ∨ PL2) ∨ PC2 ↔
      PA ∨ (PB ∨ (Pz ∨ Pu ∨ Pc)) ∨ (PO ∨ PL) ∨ PL2 ∨ PC2 := by
  tauto

lemma stableFoldCore_needs_iff (es : List EntryMeta) (b : Bool) :
    (stableFoldCore ⟨b, 0, 0⟩ es).needsZip64 = true ↔
      b = true ∨
      (∃ e ∈ es, e.zip64 = true ∨ resolvedUncompressedSize e > MAX_32_BITS ∨
        resolvedCompressedSize e > MAX_32_BITS) ∨
      (∃ i, i < es.length ∧ localHeaderOffset es i > MAX_32_BITS) ∨
      finalLocalDataSize es > MAX_32_BITS ∨
      finalCentralDirectorySize es > MAX_32_BITS := by
  induction es using List.reverseRecOn with
  | nil =>
    have h1 : (stableFoldCore ⟨b, 0, 0⟩ ([] : List EntryMeta)).needsZip64 = b := rfl
    have h2 : finalLocalDataSize [] = 0 := rfl
    have h3 : finalCentralDirectorySize [] = 0 := rfl
    rw [h1, h2, h3]
    constructor
    · intro hb
      exact Or.inl hb
    · rintro (hb | ⟨x, hx, _⟩ | ⟨i, hi, _⟩ | h0 | h0)
      · exact hb
      · exact absurd hx (List.not_mem_nil x)
      · exact absurd hi (Nat.not_lt_zero i)
      · exact absurd h0 (by decide)
      · exact absurd h0 (by decide)
  | append_singleton es e ih =>
    have hLb := stableFoldCore_local_eq_final es b
    have hCb := stableFoldCore_central_eq_final es b
    have hdefL : (stableFoldCore ⟨false, 0, 0⟩ es).localDataSize =
        finalLocalDataSize es := rfl
    have hdefC : (stableFoldCore ⟨false, 0, 0⟩ es).centralDirectorySize =
        finalCentralDirectorySize es := rfl
    have hfinL : finalLocalDataSize (es ++ [e]) =
        (stableStepCore (stableFoldCore ⟨false, 0, 0⟩ es) e).localDataSize := by
      unfold finalLocalDataSize
      rw [stableFoldCore_append]
    have hfinC : finalCentralDirectorySize (es ++ [e]) =
        (stableStepCore (stableFoldCore ⟨false, 0, 0⟩ es) e).centralDirectorySize := by
      unfold finalCentralDirectorySize
      rw [stableFoldCore_append]
    have hstepL : (stableStepCore (stableFoldCore ⟨b, 0, 0⟩ es) e).localDataSize =
        finalLocalDataSize (es ++ [e]) := by
      rw [hfinL, stableStepCore_local, stableStepCore_local, hLb, hdefL]
    have hstepC : (stableStepCore (stableFoldCore ⟨b, 0, 0⟩ es) e).centralDirectorySize =
        finalCentralDirectorySize (es ++ [e]) := by
      rw [hfinC, stableStepCore_central, stableStepCore_central, hLb, hdefL, hCb, hdefC]
    have hmonoC : finalCentralDirectorySize es ≤ finalCentralDirectorySize (es ++ [e]) := by
      rw [hfinC]
      exact stableStepCore_central_le _ _
    have hCimp : finalCentralDirectorySize es > MAX_32_BITS →
        finalCentralDirectorySize (es ++ [e]) > MAX_32_BITS :=
      fun h => Nat.lt_of_lt_of_le h hmonoC
    have hoffIff : (∃ i, i < es.length ∧ localHeaderOffset (es ++ [e]) i > MAX_32_BITS) ↔
        (∃ i, i < es.length ∧ localHeaderOffset es i > MAX_32_BITS) := by
      constructor
      · rintro ⟨i, hi, hp⟩
        rw [localHeaderOffset_append es e i (Nat.le_of_lt hi)] at hp
        exact ⟨i, hi, hp⟩
      · rintro ⟨i, hi, hp⟩
        refine ⟨i, hi, ?_⟩
        rw [localHeaderOffset_append es e i (Nat.le_of_lt hi)]
        exact hp
    have hlen : (es ++ [e]).length = es.length + 1 := by simp
    rw [stableFoldCore_append, stableStepCore_needs]
    simp only [Bool.or_eq_true, decide_eq_true_eq]
    rw [hstepL, hstepC]
    rw [ih, entryNeedsZip64B_iff, hLb]
    rw [exists_mem_append_singleton, hlen, exists_lt_succ_iff, hoffIff,
      localHeaderOffset_append_self]
    exact or_shuffle _ _ _ _ _ _ _ _ _ _ hCimp

lemma exists_mem_or (l : List EntryMeta) (p q : EntryMeta → Prop) :
    (∃ x ∈ l, p x ∨ q x) ↔ (∃ x ∈ l, p x) ∨ (∃ x ∈ l, q x) := by
  constructor
  · rintro ⟨x, hx, hp | hq⟩
    · exact Or.inl ⟨x, hx, hp⟩
    · exact Or.inr ⟨x, hx, hq⟩
  · rintro (⟨x, hx, hp⟩ | ⟨x, hx, hq⟩)
    · exact ⟨x, hx, Or.inl hp⟩
    · exact ⟨x, hx, Or.inr hq⟩

lemma or_shuffle2 (PA PB PS PO PL PC PN : Prop) :
    ((PA ∨ (PB ∨ PS) ∨ PO ∨ PL ∨ PC) ∨ PN) ↔
      ((PA ∨ PB) ∨ PN ∨ PS ∨ PO ∨ PC ∨ PL) := by
  tauto

/-- C3, confirmed.  The stable calculator marks the archive ZIP64 exactly when
ZIP64 is forced (on the archive options or on some entry), or the entry count
exceeds 65,534, or some entry's uncompressed or compressed size exceeds
0xFFFFFFFE, or some entry's local-header offset exceeds 0xFFFFFFFE, or the
central directory size or its offset (the total local bytes) exceeds
0xFFFFFFFE. -/
theorem c3_zip64_iff (entries : List EntryMeta) (options : CalcOptions)
    (h : ∀ e ∈ entries, entryOk e = true) :
    archiveIsZip64 entries options = some true ↔
      ((options.zip64 = true ∨ (∃ e ∈ entries, e.zip64 = true)) ∨
        entries.length > 65534 ∨
        (∃ e ∈ entries, resolvedUncompressedSize e > 4294967294 ∨
          resolvedCompressedSize e > 4294967294) ∨
        (∃ i, i < entries.length ∧ localHeaderOffset entries i > 4294967294) ∨
        finalCentralDirectorySize entries > 4294967294 ∨
        finalLocalDataSize entries > 4294967294) := by
  rw [archiveIsZip64_eq entries options h]
  have hM : MAX_32_BITS = 4294967294 := rfl
  have h16 : MAX_16_BITS = 65534 := rfl
  simp only [Option.some.injEq, Bool.or_eq_true, decide_eq_true_eq]
  rw [stableFoldCore_needs_iff entries options.zip64]
  rw [exists_mem_or entries (fun x => x.zip64 = true)
    (fun x => resolvedUncompressedSize x > MAX_32_BITS ∨
      resolvedCompressedSize x > MAX_32_BITS)]
  simp only [hM, h16]
  exact or_shuffle2 _ _ _ _ _ _ _

/-- C3, witness: a single entry carrying the `zip64` flag makes the archive
ZIP64; the theorem applied to `[forcedZip64Entry]`. -/
theorem c3_zip64_iff_witness :
    archiveIsZip64 [forcedZip64Entry] defaultOptions = some true :=
  (c3_zip64_iff [forcedZip64Entry] defaultOptions (by decide)).mpr
    (Or.inl (Or.inr ⟨forcedZip64Entry, List.mem_singleton.mpr rfl, rfl⟩))

/-- C2, confirmed.  Whenever the archive is marked ZIP64, the stable
calculator's tail accounting is the 22-byte end-of-central-directory record
plus the archive comment plus 76 additional bytes (ZIP64 record 56 + locator
20); `calculateZipStreamSizeAdvanced` accounts the same 56 + 20 + 22 tail; and
forcing ZIP64 on an otherwise non-ZIP64 input increases the stable
calculator's result by exactly 76 bytes. -/
theorem c2_zip64_tail :
    (∀ (entries : List EntryMeta) (options : CalcOptions),
      (∀ e ∈ entries, entryOk e = true) →
      archiveIsZip64 entries options = some true →
      calculateZipStreamSize entries options =
        some (finalLocalDataSize entries + finalCentralDirectorySize entries +
          (END_OF_CENTRAL_DIR_LENGTH + 76) + options.commentSize)) ∧
    (∀ (entries : List EntryMeta) (c : Nat),
      (∀ e ∈ entries, entryOk e = true) →
      archiveIsZip64 entries (mkOptions false c false) = some false →
      calculateZipStreamSize entries (mkOptions true c false) =
        (calculateZipStreamSize entries (mkOptions false c false)).map
          (fun n => n + 76)) ∧
    (∀ (entries : List EntryMeta) (options : CalcOptions),
      (∀ e ∈ entries, entryOk e = true) →
      ((advFoldCore options.splitArchive true ⟨options.zip64, 0, 0⟩ entries).needsZip64 ||
        decide (entries.length > MAX_16_BITS)) = true →
      calculateZipStreamSizeAdvanced entries options =
        some ((advFoldCore options.splitArchive true ⟨options.zip64, 0, 0⟩
            entries).localDataSize +
          (advFoldCore options.splitArchive true ⟨options.zip64, 0, 0⟩
            entries).centralDirectorySize +
          (END_OF_CENTRAL_DIR_LENGTH + 76) + options.commentSize)) := by
  refine ⟨?_, ?_, ?_⟩
  · intro entries options h hz
    rw [archiveIsZip64_eq entries options h] at hz
    have hflag := Option.some.inj hz
    rw [calculateZipStreamSize_eq entries options h, hflag, if_pos rfl]
    have hT : ZIP64_END_OF_CENTRAL_DIR_TOTAL_LENGTH = END_OF_CENTRAL_DIR_LENGTH + 76 := rfl
    rw [hT, stableFoldCore_local_eq_final entries options.zip64,
      stableFoldCore_central_eq_final entries options.zip64]
  · intro entries c h hz
    rw [archiveIsZip64_eq entries (mkOptions false c false) h] at hz
    have hflag := Option.some.inj hz
    have hzf : (mkOptions false c false).zip64 = false := rfl
    have hzt : (mkOptions true c false).zip64 = true := rfl
    have hcf : (mkOptions false c false).commentSize = c := rfl
    have hct : (mkOptions true c false).commentSize = c := rfl
    rw [hzf] at hflag
    have hneeds_false : (stableFoldCore ⟨false, 0, 0⟩ entries).needsZip64 = false := by
      rcases hb : (stableFoldCore ⟨false, 0, 0⟩ entries).needsZip64 with _ | _
      · rfl
      · rw [hb] at hflag
        simp at hflag
    have hcount_false : decide (entries.length > MAX_16_BITS) = false := by
      rcases hb : decide (entries.length > MAX_16_BITS) with _ | _
      · rfl
      · rw [hb] at hflag
        simp at hflag
    have hneeds_true : (stableFoldCore ⟨true, 0, 0⟩ entries).needsZip64 = true :=
      stableFoldCore_needs_mono entries ⟨true, 0, 0⟩ rfl
    rw [calculateZipStreamSize_eq entries (mkOptions true c false) h,
      calculateZipStreamSize_eq entries (mkOptions false c false) h, hzf, hzt, hcf, hct,
      hneeds_false, hneeds_true, hcount_false]
    rw [stableFoldCore_local_eq_final entries true,
      stableFoldCore_central_eq_final entries true,
      stableFoldCore_local_eq_final entries false,
      stableFoldCore_central_eq_final entries false]
    have hT : ZIP64_END_OF_CENTRAL_DIR_TOTAL_LENGTH = END_OF_CENTRAL_DIR_LENGTH + 76 := rfl
    simp only [Bool.true_or, Bool.or_self]
    simp
    omega
  · intro entries options h hflag
    rw [calculateZipStreamSizeAdvanced_eq entries options h, hflag, if_pos rfl]
    have hT : ZIP64_END_OF_CENTRAL_DIR_LENGTH + ZIP64_END_OF_CENTRAL_DIR_LOCATOR_LENGTH +
        END_OF_CENTRAL_DIR_LENGTH = END_OF_CENTRAL_DIR_LENGTH + 76 := rfl
    rw [hT]

/-- C2, witness: forcing ZIP64 on a one-entry non-ZIP64 archive adds exactly
76 bytes (278 = 202 + 76); the delta part of the theorem applied there. -/
theorem c2_zip64_tail_witness :
    calculateZipStreamSize [mkFileEntry "a" 3] (mkOptions true 0 false) =
      (calculateZipStreamSize [mkFileEntry "a" 3] (mkOptions false 0 false)).map
        (fun n => n + 76) :=
  c2_zip64_tail.2.1 [mkFileEntry "a" 3] 0 (by decide) (by decide)

end ZipSize
